import Mathlib

/-!
Verification of the timeclerk history-synchronisation tool
(`src/timeclerk/src/bin/timeclerk.rs`).

The development shallowly embeds the merge engine, the history-store I/O,
the list command's cache handling and the edit-session flow of `Command::run`
as pure Lean functions, and proves the specified properties about them.
Timestamps are modelled as integers, file contents as strings or byte lists,
and every fallible I/O step as an `Except` outcome injected through an
environment record.
-/

namespace Timeclerk

/-- Modelled from the spec: `Entry` lives in the external `timeflippers`
library (only its fields are used by this binary). Spec §3: id (unsigned,
unique, assigned by the device), facet (face identifier), time (start
timestamp), duration (elapsed time). -/
structure Entry where
  id : Nat
  facet : Nat
  time : Int
  duration : Int
deriving DecidableEq, Repr

/-- `EntryEdit` from the source: id, facet label, start_time, end_time,
description. Timestamps are modelled as integers. -/
structure EntryEdit where
  id : Nat
  facet : String
  start_time : Int
  end_time : Int
  description : String
deriving DecidableEq, Repr

/-- `EntryEdit::from(value: Entry)`: end_time is start plus duration,
description defaults to empty. The facet label rendering
(`facet_name`/`to_string`) is abstracted by the parameter `facetLabel`. -/
def entryToEdit (facetLabel : Nat → String) (value : Entry) : EntryEdit :=
  { id := value.id
    facet := facetLabel value.facet
    start_time := value.time
    end_time := value.time + value.duration
    description := "" }

/-- `let new_ids = update.iter().map(|e| e.id).collect()` (line 201). -/
def newIds (update : List Entry) : List Nat :=
  update.map (fun e => e.id)

/-- The merge step of the list command (lines 201-203):
`entries.retain(|entry| !new_ids.contains(&entry.id)); entries.append(&mut update)`. -/
def merge (entries update : List Entry) : List Entry :=
  entries.filter (fun entry => !((newIds update).contains entry.id)) ++ update

/-- The merged list is ascending when consecutive ids strictly increase. -/
def AscendingById (l : List Entry) : Prop :=
  l.Pairwise (fun a b => a.id < b.id)

instance (l : List Entry) : Decidable (AscendingById l) :=
  inferInstanceAs (Decidable (l.Pairwise _))

/-- Sample entry with id 2 as first persisted by the store. -/
def entry2old : Entry := { id := 2, facet := 0, time := 0, duration := 1 }

/-- Sample entry with id 2 as resent by the device, with different content. -/
def entry2new : Entry := { id := 2, facet := 1, time := 5, duration := 2 }

/-- Sample entry with id 1. -/
def entry1 : Entry := { id := 1, facet := 0, time := 0, duration := 1 }

/-- Sample entry with id 5. -/
def entry5 : Entry := { id := 5, facet := 0, time := 0, duration := 1 }

/-- `start_with` computation of the list command (lines 178-197):
with a cache file, `start_with.or_else(|| entries.last().map(|e| e.id)).unwrap_or(0)`
over the sorted cache entries; without one, `start_with.unwrap_or(0)`. -/
def listStartWith (cli : Option Nat) (cache : List Entry) : Nat :=
  match cli with
  | some v => v
  | none =>
    match cache.getLast? with
    | some e => e.id
    | none => 0

/-- `start_id` computation of the edit command (lines 261-267):
`start_id.unwrap_or_else(|| history.last().map(|e| e.id + 1).unwrap_or(1))`. -/
def editStartId (cli : Option Nat) (history : List EntryEdit) : Nat :=
  match cli with
  | some v => v
  | none =>
    match history.getLast? with
    | some e => e.id + 1
    | none => 1

/-- Largest key of a list under `f`, 0 when the list is empty. -/
def maxKey {α : Type} (f : α → Nat) (l : List α) : Nat :=
  l.foldr (fun e m => max (f e) m) 0

/-- Largest id in a list of entries. -/
def maxId (l : List Entry) : Nat := maxKey (fun e => e.id) l

/-- Ascending order by id for edit entries. -/
def AscendingEditById (l : List EntryEdit) : Prop :=
  l.Pairwise (fun a b => a.id < b.id)

instance (l : List EntryEdit) : Decidable (AscendingEditById l) :=
  inferInstanceAs (Decidable (l.Pairwise _))

/-- File contents as raw bytes; `none` is an absent file. -/
abbrev FileBytes := Option (List Nat)

/-- `append_history` (lines 44-53): serializes the entries (the `serde_yaml`
encoder is abstracted by `ser`) and appends the bytes to the history file in
place, creating it when absent (`create(true).append(true)`); no temporary
file and no rename are involved. -/
def append_history (ser : List EntryEdit → List Nat) (file : FileBytes)
    (entries : List EntryEdit) : FileBytes :=
  some (file.getD [] ++ ser entries)

/-- State of the history file when the in-place write of `append_history`
fails after only `k` bytes reached the disk. -/
def append_history_failed (ser : List EntryEdit → List Nat) (file : FileBytes)
    (entries : List EntryEdit) (k : Nat) : FileBytes :=
  some (file.getD [] ++ (ser entries).take k)

/-- Byte serialization used in the concrete persistence scenario. -/
def serTwoBytes : List EntryEdit → List Nat := fun _ => [10, 20]

/-- Outcome of `fs::read_to_string` on the history file. -/
inductive ReadFileOutcome
  | found (s : String)
  | notFound
  | otherIoFailure
deriving DecidableEq, Repr

/-- Errors surfaced by the history store. -/
inductive LoadError
  | parseFailed
  | ioFailed
deriving DecidableEq, Repr

/-- `load_history` (lines 33-42): a successful read is parsed (the
`serde_yaml` parser is abstracted by `parse`, and its error propagates via
`?`); `NotFound` degrades to the empty list; any other read error
propagates. -/
def load_history (parse : String → Except LoadError (List EntryEdit)) :
    ReadFileOutcome → Except LoadError (List EntryEdit)
  | .found s => parse s
  | .notFound => .ok []
  | .otherIoFailure => .error .ioFailed

/-- Concrete parser used by the load witness: empty text parses to the empty
list, anything else is a parse failure. -/
def parseEmptyOnly : String → Except LoadError (List EntryEdit) :=
  fun s => if s = "" then .ok [] else .error .parseFailed

/-- Reasons a fallible step of a command can fail. -/
inductive Failure
  | loadFailed
  | fetchFailed
  | encodeFailed
  | scratchCreateFailed
  | scratchWriteFailed
  | editorLaunchFailed
  | readBackFailed
  | parseScratchFailed
  | appendFailed
  | cacheParseFailed
  | cacheReadFailed
  | cacheEncodeFailed
  | cacheWriteFailed
deriving DecidableEq, Repr

/-- Outcome of the edit command. -/
inductive EditOutcome
  | ok
  | err (f : Failure)
  | panicked
deriving DecidableEq, Repr

/-- Injected outcomes for every fallible step of the edit command
(lines 241-312), in program order. The editor result carries the exit code
and the scratch content the editor leaves behind; `appendPartial` is
whatever a failed final append leaves added to the history file. -/
structure EditEnv where
  loadResult : Except Failure (List EntryEdit)
  fetchResult : Except Failure (List Entry)
  encodeResult : Except Failure String
  scratchCreate : Except Failure Unit
  scratchWrite : Except Failure Unit
  editorRun : Except Failure (Int × String)
  readBack : Except Failure Unit
  parseScratch : String → Except Failure (List EntryEdit)
  appendResult : Except Failure Unit
  appendPartial : List EntryEdit

/-- The files the edit command touches: the persisted history (as the list
it holds) and the scratch file. -/
structure EditState where
  history : List EntryEdit
  scratch : Option String
deriving DecidableEq, Repr

/-- The edit command (lines 241-312): load the history, fetch new entries,
encode them to text, create the scratch file with `create_new` and write the
text, run the editor (exit code never inspected), re-read the scratch file,
parse it, `last().unwrap()` the parsed list (panics when it is empty), then
append to the history file. Every `?` is an error return leaving later steps
unexecuted; no step ever deletes the scratch file. -/
def runEdit (env : EditEnv) (st : EditState) : EditOutcome × EditState :=
  match env.loadResult with
  | .error f => (.err f, st)
  | .ok _history =>
    match env.fetchResult with
    | .error f => (.err f, st)
    | .ok _update =>
      match env.encodeResult with
      | .error f => (.err f, st)
      | .ok text =>
        match env.scratchCreate with
        | .error f => (.err f, st)
        | .ok _ =>
          match env.scratchWrite with
          | .error f => (.err f, { st with scratch := some "" })
          | .ok _ =>
            match env.editorRun with
            | .error f => (.err f, { st with scratch := some text })
            | .ok (_code, edited) =>
              match env.readBack with
              | .error f => (.err f, { st with scratch := some edited })
              | .ok _ =>
                match env.parseScratch edited with
                | .error f => (.err f, { st with scratch := some edited })
                | .ok newEntries =>
                  match newEntries.getLast? with
                  | none => (.panicked, { st with scratch := some edited })
                  | some _ =>
                    match env.appendResult with
                    | .error f =>
                      (.err f, { history := st.history ++ env.appendPartial
                                 scratch := some edited })
                    | .ok _ =>
                      (.ok, { history := st.history ++ newEntries
                              scratch := some edited })

/-- Sample edit entry. -/
def sampleEdit : EntryEdit :=
  { id := 3, facet := "work", start_time := 0, end_time := 1, description := "" }

/-- Prior state: one persisted entry, no scratch file. -/
def stPrior : EditState := { history := [sampleEdit], scratch := none }

/-- Edit environment where creating the scratch file fails and every other
step succeeds. -/
def envScratchFails : EditEnv :=
  { loadResult := .ok []
    fetchResult := .ok []
    encodeResult := .ok "text"
    scratchCreate := .error .scratchCreateFailed
    scratchWrite := .ok ()
    editorRun := .ok (0, "edited")
    readBack := .ok ()
    parseScratch := fun _ => .ok [sampleEdit]
    appendResult := .ok ()
    appendPartial := [] }

/-- Edit environment where every step succeeds and the editor exits 0. -/
def envAllOk : EditEnv :=
  { loadResult := .ok []
    fetchResult := .ok []
    encodeResult := .ok "text"
    scratchCreate := .ok ()
    scratchWrite := .ok ()
    editorRun := .ok (0, "edited")
    readBack := .ok ()
    parseScratch := fun _ => .ok [sampleEdit]
    appendResult := .ok ()
    appendPartial := [] }

/-- Edit environment where the edited scratch file parses to the empty
list and everything else succeeds. -/
def envEmptyParse : EditEnv :=
  { loadResult := .ok []
    fetchResult := .ok []
    encodeResult := .ok "text"
    scratchCreate := .ok ()
    scratchWrite := .ok ()
    editorRun := .ok (0, "edited")
    readBack := .ok ()
    parseScratch := fun _ => .ok []
    appendResult := .ok ()
    appendPartial := [] }

/-- Outcome of reading the `--update` cache file. -/
inductive CacheRead
  | found (entries : List Entry)
  | parseFailure
  | notFound
  | ioFailure
deriving Repr

/-- Injected outcomes for the fallible steps of the list command
(lines 170-232). -/
structure ListEnv where
  updateFile : Bool
  startWith : Option Nat
  cacheRead : CacheRead
  fetch : Nat → Except Failure (List Entry)
  cacheEncode : Except Failure Unit
  cacheWrite : Except Failure Unit

/-- Result of a successful list command: the merged entries handed to the
view, plus the warnings printed to stderr along the way. -/
structure ListResult where
  merged : List Entry
  warnings : List Failure
deriving DecidableEq, Repr

/-- Insert an entry into a list ascending by id, before the first entry of
an id at least as large (keeps the stability of the Rust sort). -/
def insertById (e : Entry) : List Entry → List Entry
  | [] => [e]
  | x :: xs => if e.id ≤ x.id then e :: x :: xs else x :: insertById e xs

/-- `entries.sort_by(|a, b| a.id.cmp(&b.id))` (line 182), modelled as a
stable insertion sort by id. -/
def sortById : List Entry → List Entry
  | [] => []
  | x :: xs => insertById x (sortById xs)

/-- The list command (lines 170-232): read and sort the cache file when
`--update` is given (an absent file degrades to the empty list, a parse or
other read error is fatal), compute the fetch start id, fetch from the
device (fatal on error), merge, then — when `--update` is given — encode and
write the cache back, turning any failure there into a stderr warning only;
the merged list is then rendered. -/
def runList (env : ListEnv) : Except Failure ListResult :=
  let step1 : Except Failure (Nat × List Entry) :=
    if env.updateFile then
      match env.cacheRead with
      | .found es =>
        .ok (listStartWith env.startWith (sortById es), sortById es)
      | .parseFailure => .error .cacheParseFailed
      | .notFound => .ok (listStartWith env.startWith [], [])
      | .ioFailure => .error .cacheReadFailed
    else .ok (listStartWith env.startWith [], [])
  match step1 with
  | .error f => .error f
  | .ok (start, entries) =>
    match env.fetch start with
    | .error f => .error f
    | .ok update =>
      let warnings :=
        if env.updateFile then
          match env.cacheEncode with
          | .error f => [f]
          | .ok _ =>
            match env.cacheWrite with
            | .error f => [f]
            | .ok _ => []
        else []
      .ok { merged := merge entries update, warnings := warnings }

/-- List environment: cache file absent, the device returns `entry1`, and
writing the cache back fails. -/
def envCacheWriteFails : ListEnv :=
  { updateFile := true
    startWith := none
    cacheRead := .notFound
    fetch := fun _ => .ok [entry1]
    cacheEncode := .ok ()
    cacheWrite := .error .cacheWriteFailed }

/-- List environment: cache file holds `entry1`, the device returns
`entry5`, and writing the cache back fails. -/
def envCacheWriteFailsFound : ListEnv :=
  { updateFile := true
    startWith := none
    cacheRead := .found [entry1]
    fetch := fun _ => .ok [entry5]
    cacheEncode := .ok ()
    cacheWrite := .error .cacheWriteFailed }

/-- C1 counterexample: with the existing store holding `entry2old` and the
device resending id 2 as `entry2new`, the merged result keeps the incoming
value and drops the existing one — the existing value does not win. -/
theorem merge_existing_wins_false :
    entry2old.id = entry2new.id ∧ entry2old ≠ entry2new ∧
    merge [entry2old] [entry2new] = [entry2new] ∧
    entry2old ∉ merge [entry2old] [entry2new] := by
  decide

/-- C1 (amended): membership in `merge existing incoming` holds exactly for
the incoming entries plus those existing entries whose id is not resent: on
an id clash the incoming value wins and the existing value is discarded. -/
theorem merge_incoming_wins (E I : List Entry) (a : Entry) :
    a ∈ merge E I ↔ a ∈ I ∨ (a ∈ E ∧ a.id ∉ newIds I) := by
  simp [merge, List.mem_filter]
  tauto

/-- C2 counterexample: with a uniquely-keyed existing list `[entry5]` and a
uniquely-keyed incoming list `[entry1]`, the merged list is `[entry5, entry1]`,
which is not in ascending order by id. -/
theorem merge_ascending_false :
    (newIds [entry5]).Nodup ∧ (newIds [entry1]).Nodup ∧
    merge [entry5] [entry1] = [entry5, entry1] ∧
    ¬ AscendingById (merge [entry5] [entry1]) := by
  decide

/-- C2 (amended): for uniquely-keyed existing and incoming lists, the merged
list contains every id occurring in either list exactly once; it is ascending
by id under the additional conditions that both inputs are ascending and every
incoming id is at least every existing id. -/
theorem merge_unique_ascending (E I : List Entry)
    (hE : (newIds E).Nodup) (hI : (newIds I).Nodup) :
    ((newIds (merge E I)).Nodup ∧
      (∀ n, n ∈ newIds (merge E I) ↔ n ∈ newIds E ∨ n ∈ newIds I)) ∧
    (AscendingById E → AscendingById I →
      (∀ e ∈ E, ∀ i ∈ I, e.id ≤ i.id) → AscendingById (merge E I)) := by
  refine ⟨⟨?_, ?_⟩, ?_⟩
  · rw [merge, newIds, List.map_append, List.nodup_append]
    have hsub : ((E.filter fun entry => !((newIds I).contains entry.id)).map
        (fun e => e.id)).Sublist (E.map fun e => e.id) :=
      (List.filter_sublist E).map _
    refine ⟨List.Nodup.sublist hsub hE, hI, ?_⟩
    intro n hn hn2
    obtain ⟨e, he, rfl⟩ := List.mem_map.mp hn
    have hp := (List.mem_filter.mp he).2
    have hmem : e.id ∈ newIds I := hn2
    simp [hmem] at hp
  · intro n
    simp only [merge, newIds, List.map_append, List.mem_append, List.mem_map,
      List.mem_filter]
    constructor
    · rintro (⟨e, ⟨heE, _⟩, rfl⟩ | h)
      · exact Or.inl ⟨e, heE, rfl⟩
      · exact Or.inr h
    · rintro (⟨e, heE, rfl⟩ | h)
      · by_cases hmem : e.id ∈ I.map fun e => e.id
        · exact Or.inr (by simpa using hmem)
        · refine Or.inl ⟨e, ⟨heE, ?_⟩, rfl⟩
          simpa [newIds] using hmem
      · exact Or.inr h
  · intro hAE hAI hle
    rw [AscendingById, merge, List.pairwise_append]
    refine ⟨List.Pairwise.sublist (List.filter_sublist E) hAE, hAI, ?_⟩
    intro e he i hi
    have hef := List.mem_filter.mp he
    have h1 : e.id ≤ i.id := hle e hef.1 i hi
    have h2 : e.id ≠ i.id := by
      intro hEq
      have hmem : e.id ∈ newIds I := hEq ▸ List.mem_map_of_mem _ hi
      have hp := hef.2
      simp [hmem] at hp
    exact lt_of_le_of_ne h1 h2

/-- Witness for `merge_unique_ascending` at the concrete input
existing `[entry1]`, incoming `[entry5]`. -/
theorem merge_unique_ascending_witness :
    (newIds (merge [entry1] [entry5])).Nodup ∧
    (1 ∈ newIds (merge [entry1] [entry5]) ↔
      1 ∈ newIds [entry1] ∨ 1 ∈ newIds [entry5]) ∧
    AscendingById (merge [entry1] [entry5]) := by
  have h := merge_unique_ascending [entry1] [entry5] (by decide) (by decide)
  exact ⟨h.1.1, h.1.2 1, h.2 (by decide) (by decide) (by decide)⟩

/-- C3: merging the same incoming batch twice equals merging it once. -/
theorem merge_idempotent (E I : List Entry) :
    merge (merge E I) I = merge E I := by
  unfold merge
  rw [List.filter_append]
  have hI : I.filter (fun entry => !((newIds I).contains entry.id)) = [] := by
    apply List.filter_eq_nil_iff.mpr
    intro a ha
    have h : a.id ∈ newIds I := List.mem_map_of_mem _ ha
    simp [h]
  rw [hI, List.append_nil]
  congr 1
  rw [List.filter_filter]
  apply List.filter_congr
  intro a _
  simp

theorem maxKey_cons {α : Type} (f : α → Nat) (x : α) (l : List α) :
    maxKey f (x :: l) = max (f x) (maxKey f l) := rfl

theorem getLast_eq_maxKey {α : Type} (f : α → Nat) :
    ∀ l : List α, (l.Pairwise fun a b => f a < f b) → l ≠ [] →
      l.getLast?.map f = some (maxKey f l) := by
  intro l
  induction l with
  | nil => intro _ hne; exact absurd rfl hne
  | cons x xs ih =>
    intro hp _
    cases xs with
    | nil => simp [maxKey]
    | cons y ys =>
      have hlast := ih (List.Pairwise.of_cons hp) (by simp)
      rw [List.getLast?_cons_cons, hlast]
      have hxy : f x < f y := (List.pairwise_cons.mp hp).1 y (by simp)
      have hle : f x ≤ maxKey f (y :: ys) := by
        rw [maxKey_cons]
        exact le_trans (le_of_lt hxy) (le_max_left _ _)
      rw [maxKey_cons f x (y :: ys), max_eq_right hle]

/-- C8 counterexample: with cached existing entries `[entry5]` and no caller
override, the list command fetches starting at id 5 — the id of the last
cached entry itself — not at max(id in merged) + 1 = 6. -/
theorem listStartWith_not_succ :
    maxId (merge [entry5] []) = 5 ∧
    listStartWith none [entry5] ≠ maxId (merge [entry5] []) + 1 ∧
    listStartWith none [entry5] = 5 := by decide

/-- C8 (amended): a caller-supplied override always wins for both commands;
without an override, the edit command starts at the last persisted id + 1
(1 when the history is empty), while the list command starts at the last
cached id itself, with no + 1 (0 when the cache is empty); the defaults are
fixed constants, not configuration-defined. -/
theorem startId_spec (v : Nat) (cache : List Entry) (history : List EntryEdit) :
    (listStartWith (some v) cache = v ∧ editStartId (some v) history = v) ∧
    (listStartWith none [] = 0 ∧ editStartId none ([] : List EntryEdit) = 1) ∧
    (AscendingById cache → cache ≠ [] → listStartWith none cache = maxId cache) ∧
    (AscendingEditById history → history ≠ [] →
      editStartId none history = maxKey (fun e => e.id) history + 1) := by
  refine ⟨⟨rfl, rfl⟩, ⟨rfl, rfl⟩, ?_, ?_⟩
  · intro hp hne
    have hp2 : cache.Pairwise (fun a b => a.id < b.id) := hp
    have h := getLast_eq_maxKey (fun e => e.id) cache hp2 hne
    rw [listStartWith, maxId]
    cases hl : cache.getLast? with
    | none => rw [hl] at h; exact Option.noConfusion h
    | some e =>
      rw [hl] at h
      simpa using h
  · intro hp hne
    have hp2 : history.Pairwise (fun a b => a.id < b.id) := hp
    have h := getLast_eq_maxKey (fun e => e.id) history hp2 hne
    rw [editStartId]
    cases hl : history.getLast? with
    | none => rw [hl] at h; exact Option.noConfusion h
    | some e =>
      rw [hl] at h
      simp at h
      simp [h]

/-- Witness for `startId_spec` with override 9 and the singleton ascending
cache `[entry5]`. -/
theorem startId_spec_witness :
    listStartWith (some 9) [entry5] = 9 ∧
    editStartId none ([] : List EntryEdit) = 1 ∧
    listStartWith none [entry5] = maxId [entry5] := by
  have h := startId_spec 9 [entry5] []
  exact ⟨h.1.1, h.2.1.2, h.2.2.1 (by decide) (by decide)⟩

/-- C4 counterexample: prior file `[7]`, batch serialized to `[10, 20]`,
write fails after 1 byte: the file then holds `[7, 10]`, which is neither the
prior content nor the fully committed content — the commit is not
all-or-nothing and no temporary-location-then-replace step exists. -/
theorem append_history_not_atomic :
    append_history_failed serTwoBytes (some [7]) [] 1 = some [7, 10] ∧
    append_history_failed serTwoBytes (some [7]) [] 1 ≠ some [7] ∧
    append_history_failed serTwoBytes (some [7]) [] 1 ≠
      append_history serTwoBytes (some [7]) [] := by decide

/-- C4 (amended): `append_history` appends in place; even when the write
fails partway, the prior content survives unchanged as the initial segment of
the file, but a partial suffix may remain, so the batch is not written
all-or-nothing. -/
theorem append_history_keeps_prior (ser : List EntryEdit → List Nat)
    (file : FileBytes) (entries : List EntryEdit) (k : Nat) :
    ((append_history_failed ser file entries k).getD []).take
        (file.getD []).length = file.getD [] ∧
    ((append_history ser file entries).getD []).take
        (file.getD []).length = file.getD [] := by
  constructor <;> simp [append_history_failed, append_history]

/-- C5: loading the history returns the empty list when no file exists, the
parsed list when the file exists and parses, and an error — never any `ok`
list — when the file exists but fails to parse. -/
theorem load_history_spec (parse : String → Except LoadError (List EntryEdit)) :
    load_history parse .notFound = .ok [] ∧
    (∀ s l, parse s = .ok l → load_history parse (.found s) = .ok l) ∧
    (∀ s e, parse s = .error e →
      load_history parse (.found s) = .error e ∧
      ∀ l, load_history parse (.found s) ≠ .ok l) := by
  refine ⟨rfl, ?_, ?_⟩
  · intro s l h
    simpa [load_history] using h
  · intro s e h
    refine ⟨by simpa [load_history] using h, ?_⟩
    intro l hcontra
    simp only [load_history] at hcontra
    rw [h] at hcontra
    exact Except.noConfusion hcontra

/-- Witness for `load_history_spec` at the parser `parseEmptyOnly` and the
unparsable content `"x"`. -/
theorem load_history_spec_witness :
    load_history parseEmptyOnly .notFound = .ok [] ∧
    load_history parseEmptyOnly (.found "x") = .error .parseFailed := by
  have h := load_history_spec parseEmptyOnly
  exact ⟨h.1, (h.2.2 "x" .parseFailed (by simp [parseEmptyOnly])).1⟩

/-- C6: if the edit session fails before commit — the scratch file cannot be
created or written, or the edited scratch content fails to parse back — the
command returns that error, the persisted history equals the prior one, and
the scratch file is not deleted (after a parse failure it still holds the
editor's content). -/
theorem runEdit_fail_before_commit (env : EditEnv) (st : EditState)
    (hist : List EntryEdit) (upd : List Entry) (text : String)
    (hload : env.loadResult = .ok hist) (hfetch : env.fetchResult = .ok upd)
    (henc : env.encodeResult = .ok text) :
    (∀ f, env.scratchCreate = .error f → runEdit env st = (.err f, st)) ∧
    (∀ f, env.scratchCreate = .ok () → env.scratchWrite = .error f →
      runEdit env st = (.err f, { st with scratch := some "" })) ∧
    (∀ c s f, env.scratchCreate = .ok () → env.scratchWrite = .ok () →
      env.editorRun = .ok (c, s) → env.readBack = .ok () →
      env.parseScratch s = .error f →
      runEdit env st = (.err f, { st with scratch := some s })) := by
  refine ⟨?_, ?_, ?_⟩
  · intro f hf
    simp [runEdit, hload, hfetch, henc, hf]
  · intro f h1 h2
    simp [runEdit, hload, hfetch, henc, h1, h2]
  · intro c s f h1 h2 h3 h4 h5
    simp [runEdit, hload, hfetch, henc, h1, h2, h3, h4, h5]

/-- Witness for `runEdit_fail_before_commit`: in `envScratchFails` the
command errors out and leaves the prior state untouched. -/
theorem runEdit_fail_before_commit_witness :
    runEdit envScratchFails stPrior = (.err .scratchCreateFailed, stPrior) :=
  (runEdit_fail_before_commit envScratchFails stPrior [] [] "text"
    rfl rfl rfl).1 .scratchCreateFailed rfl

/-- C7: the editor exit code is never inspected — two runs differing only in
the exit code produce identical results — while a failure to launch the
editor means the command cannot succeed (and cannot reach the panic). -/
theorem runEdit_editor_exit_code (env : EditEnv) (st : EditState) :
    (∀ c1 c2 s, runEdit { env with editorRun := .ok (c1, s) } st =
      runEdit { env with editorRun := .ok (c2, s) } st) ∧
    (∀ f, env.editorRun = .error f →
      (runEdit env st).1 ≠ .ok ∧ (runEdit env st).1 ≠ .panicked) := by
  constructor
  · intro c1 c2 s
    cases h1 : env.loadResult <;> cases h2 : env.fetchResult <;>
      cases h3 : env.encodeResult <;> cases h4 : env.scratchCreate <;>
      cases h5 : env.scratchWrite <;>
      simp [runEdit, h1, h2, h3, h4, h5]
  · intro f hf
    cases h1 : env.loadResult <;> cases h2 : env.fetchResult <;>
      cases h3 : env.encodeResult <;> cases h4 : env.scratchCreate <;>
      cases h5 : env.scratchWrite <;>
      simp [runEdit, h1, h2, h3, h4, h5, hf]

/-- Witness for `runEdit_editor_exit_code`: exit code 7 and exit code 0
yield the same run, and a launch failure forbids success. -/
theorem runEdit_editor_exit_code_witness :
    runEdit { envAllOk with editorRun := .ok (7, "edited") } stPrior =
      runEdit { envAllOk with editorRun := .ok (0, "edited") } stPrior ∧
    (runEdit { envAllOk with editorRun := .error .editorLaunchFailed }
      stPrior).1 ≠ .ok := by
  constructor
  · exact (runEdit_editor_exit_code envAllOk stPrior).1 7 0 "edited"
  · exact ((runEdit_editor_exit_code
      { envAllOk with editorRun := .error .editorLaunchFailed } stPrior).2
      .editorLaunchFailed rfl).1

/-- C10: when every step up to parsing succeeds and the edited scratch file
parses to the empty list, the edit command panics (`last().unwrap()` on an
empty vector) — it neither returns an error nor commits anything — while a
non-empty parsed list never panics. -/
theorem runEdit_empty_parse_panics (env : EditEnv) (st : EditState)
    (hist : List EntryEdit) (upd : List Entry) (text : String)
    (c : Int) (s : String)
    (hload : env.loadResult = .ok hist) (hfetch : env.fetchResult = .ok upd)
    (henc : env.encodeResult = .ok text) (hcr : env.scratchCreate = .ok ())
    (hwr : env.scratchWrite = .ok ()) (hed : env.editorRun = .ok (c, s))
    (hrb : env.readBack = .ok ()) :
    (env.parseScratch s = .ok [] →
      runEdit env st = (.panicked, { st with scratch := some s })) ∧
    (∀ l, env.parseScratch s = .ok l → l ≠ [] →
      (runEdit env st).1 ≠ .panicked) := by
  constructor
  · intro hp
    simp [runEdit, hload, hfetch, henc, hcr, hwr, hed, hrb, hp]
  · intro l hp hne
    obtain ⟨e, he⟩ := Option.isSome_iff_exists.mp
      (List.getLast?_isSome.mpr hne)
    cases ha : env.appendResult <;>
      simp [runEdit, hload, hfetch, henc, hcr, hwr, hed, hrb, hp, he, ha]

/-- Witness for `runEdit_empty_parse_panics`: in `envEmptyParse` the command
panics and the history file is untouched. -/
theorem runEdit_empty_parse_panics_witness :
    runEdit envEmptyParse stPrior =
      (.panicked, { stPrior with scratch := some "edited" }) :=
  (runEdit_empty_parse_panics envEmptyParse stPrior [] [] "text" 0 "edited"
    rfl rfl rfl rfl rfl rfl rfl).1 rfl

/-- C9 counterexample: in `envCacheWriteFails` the device fetch succeeds and
writing the cache file back fails, yet the list command completes
successfully, carrying the write failure only as a stderr warning — the
failure is not fatal for the command. -/
theorem cache_write_failure_not_fatal :
    runList envCacheWriteFails =
      .ok { merged := [entry1], warnings := [.cacheWriteFailed] } := by
  rfl

/-- C9 (amended): whenever the cache is read, the device fetch succeeds and
the cache write-back fails, the list command still succeeds, returning the
merged result with the write failure surfaced as a warning. -/
theorem runList_write_failure_warns (env : ListEnv)
    (es update : List Entry) (f : Failure)
    (hu : env.updateFile = true)
    (hr : env.cacheRead = .found es)
    (hf : env.fetch (listStartWith env.startWith (sortById es)) = .ok update)
    (henc : env.cacheEncode = .ok ())
    (hw : env.cacheWrite = .error f) :
    runList env =
      .ok { merged := merge (sortById es) update, warnings := [f] } := by
  simp [runList, hu, hr, hf, henc, hw]

/-- Witness for `runList_write_failure_warns` in `envCacheWriteFailsFound`. -/
theorem runList_write_failure_warns_witness :
    runList envCacheWriteFailsFound =
      .ok { merged := merge (sortById [entry1]) [entry5]
            warnings := [.cacheWriteFailed] } :=
  runList_write_failure_warns envCacheWriteFailsFound [entry1] [entry5]
    .cacheWriteFailed rfl rfl rfl rfl rfl

end Timeclerk
